import Mathlib

/-!
Verification development for the batch bolt-generation script (`test.py`) and
its companion verifier (`verify_bolts.py`).

The Python source drives a CAD host API; the embedding below keeps the
program's own control flow and data (parallel dimension lists, the used-index
set, the JSON checkpoint, the batch loop counters) and abstracts the external
CAD/host effects (thread-feature success, geometry success, export success,
progress-dialog cancellation, `random.choice`) as explicit oracle inputs.
-/

/-! ### Python string helpers used by the CSV loader -/

/-- Whitespace characters recognised by Python's `str.strip()` (the subset
that can occur in text lines: space, tab, CR, LF, vertical tab, form feed). -/
def isPySpace (c : Char) : Bool :=
  c = ' ' || c = '\t' || c = '\n' || c = '\r' || c = '\x0b' || c = '\x0c'

/-- Model of Python `str.strip()`: drop leading and trailing whitespace. -/
def pyStrip (s : List Char) : List Char :=
  ((s.dropWhile isPySpace).reverse.dropWhile isPySpace).reverse

/-- One step of `BoltDimensions._parse_csv_line`'s character loop.
State: (in_quotes, current field chars, completed fields). -/
def csvStep (st : Bool × List Char × List (List Char)) (c : Char) :
    Bool × List Char × List (List Char) :=
  let (inQuotes, current, result) := st
  if c = '"' then (!inQuotes, current, result)
  else if c = ',' && !inQuotes then (inQuotes, [], result ++ [pyStrip current])
  else (inQuotes, current ++ [c], result)

/-- Model of `BoltDimensions._parse_csv_line`: split on commas outside
quotes, stripping each field; the final field is appended only when the
remaining accumulator is non-empty (Python's `if current:` check). -/
def parse_csv_line (line : List Char) : List (List Char) :=
  let (_, current, result) := line.foldl csvStep (false, [], [])
  if current = [] then result else result ++ [pyStrip current]

/-- Numeric value of a digit string, most significant first. -/
def digitsVal (ds : List Char) : ℕ :=
  ds.foldl (fun acc c => 10 * acc + (c.toNat - '0'.toNat)) 0

/-- Model of Python `float()` on the plain decimal strings that appear in the
dimension CSV: optional sign, then digits with an optional decimal point
(`"12"`, `"7.8"`, `".5"`, `"5."`).  Anything else (letters, empty string,
stray characters) fails, as `float()` raises `ValueError` there.  Scientific
notation and specials are outside the data's format and also map to `none`. -/
def pyFloat (s : List Char) : Option ℚ :=
  let (sign, rest) : ℚ × List Char :=
    match s with
    | '+' :: r => (1, r)
    | '-' :: r => (-1, r)
    | r => (1, r)
  let intPart := rest.takeWhile (fun c => c ≠ '.')
  let tail := rest.dropWhile (fun c => c ≠ '.')
  match tail with
  | [] =>
      if intPart ≠ [] && intPart.all Char.isDigit then
        some (sign * digitsVal intPart)
      else none
  | '.' :: frac =>
      if (intPart ≠ [] || frac ≠ []) && intPart.all Char.isDigit
          && frac.all Char.isDigit then
        some (sign * (digitsVal intPart + digitsVal frac / 10 ^ frac.length))
      else none
  | _ :: _ => none

/-! ### BoltDimensions: the in-memory dimension table and used-index set -/

/-- State of the Python `BoltDimensions` instance: six parallel column lists,
the used-index set, and the loaded flag. -/
structure BoltDimensions where
  thread_sizes : List (List Char)
  body_diameters : List ℚ
  pitches : List ℚ
  head_diameters : List ℚ
  body_lengths : List ℚ
  head_heights : List ℚ
  used_indices : Finset ℕ
  is_loaded : Bool
deriving DecidableEq

/-- Freshly constructed `BoltDimensions()`. -/
def BoltDimensions.init : BoltDimensions :=
  ⟨[], [], [], [], [], [], ∅, false⟩

/-- Accumulator for `load_from_csv`: the six lists being rebuilt plus
`line_count`. -/
structure LoadState where
  thread_sizes : List (List Char)
  body_diameters : List ℚ
  pitches : List ℚ
  head_diameters : List ℚ
  body_lengths : List ℚ
  head_heights : List ℚ
  line_count : ℕ

/-- Processing of one data line by `load_from_csv`'s loop.  Mirrors the
Python `try` block's sequential appends: `thread_sizes` is appended before
the first `float()` conversion, so a `ValueError` at field `k` leaves the
fields before `k` already appended (`continue` then skips the rest and does
not increment `line_count`). -/
def loadRow (st : LoadState) (line : List Char) : LoadState :=
  if pyStrip line = [] then st
  else
    let values := parse_csv_line line
    if values.length ≥ 6 then
      let st := { st with thread_sizes := st.thread_sizes ++ [values.getD 0 []] }
      match pyFloat (values.getD 1 []) with
      | none => st
      | some bd =>
        let st := { st with body_diameters := st.body_diameters ++ [bd] }
        match pyFloat (values.getD 2 []) with
        | none => st
        | some p =>
          let st := { st with pitches := st.pitches ++ [p] }
          match pyFloat (values.getD 3 []) with
          | none => st
          | some hd =>
            let st := { st with head_diameters := st.head_diameters ++ [hd] }
            match pyFloat (values.getD 4 []) with
            | none => st
            | some bl =>
              let st := { st with body_lengths := st.body_lengths ++ [bl] }
              match pyFloat (values.getD 5 []) with
              | none => st
              | some hh =>
                { st with head_heights := st.head_heights ++ [hh],
                          line_count := st.line_count + 1 }
    else st

/-- Model of `BoltDimensions.load_from_csv` for an existing file whose lines
are given (each line as produced by Python file iteration, i.e. with its
trailing newline).  The header line is skipped, the column lists are cleared
and rebuilt (the used-index set is deliberately preserved), `is_loaded`
becomes `line_count > 0`, and that flag is also the returned success value. -/
def load_from_csv (bd : BoltDimensions) (lines : List (List Char)) :
    BoltDimensions × Bool :=
  let st0 : LoadState := ⟨[], [], [], [], [], [], 0⟩
  let st := (lines.drop 1).foldl loadRow st0
  let bd' : BoltDimensions :=
    { thread_sizes := st.thread_sizes
      body_diameters := st.body_diameters
      pitches := st.pitches
      head_diameters := st.head_diameters
      body_lengths := st.body_lengths
      head_heights := st.head_heights
      used_indices := bd.used_indices
      is_loaded := decide (st.line_count > 0) }
  (bd', decide (st.line_count > 0))

/-- Model of `BoltDimensions.set_used_indices`: replace the used set with the
set of the given indices. -/
def set_used_indices (bd : BoltDimensions) (indices : List ℕ) : BoltDimensions :=
  { bd with used_indices := indices.toFinset }

/-- The list `list(set(range(len(body_diameters))) - used_indices)` computed
inside `get_random_unused_bolt` (and `get_unused_indices`). -/
def unusedList (bd : BoltDimensions) : List ℕ :=
  (List.range bd.body_diameters.length).filter (fun i => i ∉ bd.used_indices)

/-- Failure modes of `get_random_unused_bolt` (both are `ValueError` in
Python, with distinct messages). -/
inductive DrawError where
  | notLoaded
  | exhausted
deriving DecidableEq

/-- Index selected by `random.choice(available_indices)`, with the random
source modelled as a natural number reduced modulo the list length. -/
def drawIndex (bd : BoltDimensions) (r : ℕ) : ℕ :=
  (unusedList bd).getD (r % (unusedList bd).length) 0

/-- Model of `BoltDimensions.get_random_unused_bolt`: raises when no data is
loaded, raises `exhausted` when every index is used, otherwise picks a random
unused index, adds it to the used set and returns it with the new state. -/
def get_random_unused_bolt (bd : BoltDimensions) (r : ℕ) :
    Except DrawError (ℕ × BoltDimensions) :=
  if ¬ bd.is_loaded ∨ bd.body_diameters.length = 0 then .error .notLoaded
  else if unusedList bd = [] then .error .exhausted
  else
    let index := drawIndex bd r
    .ok (index, { bd with used_indices := insert index bd.used_indices })

/-! ### Checkpoint store -/

/-- Parsed content of the JSON tracking file. -/
structure TrackingData where
  last_bolt : ℕ
  used_indices : List ℕ
deriving DecidableEq

/-- Abstract state of the tracking file: `none` = file absent,
`some none` = file present but unreadable / corrupt JSON,
`some (some d)` = file parses to `d`. -/
def TrackingFile := Option (Option TrackingData)

/-- Model of `load_tracking_data`: absent or unreadable files yield the
default `{"last_bolt": 0, "used_indices": []}`; a parsed file is returned
as stored. -/
def load_tracking_data : TrackingFile → TrackingData
  | none => ⟨0, []⟩
  | some none => ⟨0, []⟩
  | some (some d) => d

/-! ### Bolt: standard sizes, pitch map, thread designations -/

/-- `Bolt.std_sizes`: the fixed table of standard metric thread sizes. -/
def std_sizes : List ℚ :=
  [1, 1.6, 2, 2.5, 3, 4, 5, 6, 8, 10, 12, 14, 16, 18, 20, 22, 24, 27, 30,
   33, 36, 39, 42, 45, 48]

/-- `Bolt.pitch_map` as an association list (size, coarse pitch). -/
def pitch_assoc : List (ℚ × ℚ) :=
  [(1, 0.25), (1.6, 0.35), (2, 0.4), (2.5, 0.45), (3, 0.5), (4, 0.7),
   (5, 0.8), (6, 1.0), (8, 1.25), (10, 1.5), (12, 1.75), (14, 2.0),
   (16, 2.0), (18, 2.5), (20, 2.5), (22, 2.5), (24, 3.0), (27, 3.0),
   (30, 3.5), (33, 3.5), (36, 4.0), (39, 4.0), (42, 4.5), (45, 4.5),
   (48, 5.0)]

/-- Python `dict.get(k, default)` over an association list. -/
def dictGet (l : List (ℚ × ℚ)) (k default : ℚ) : ℚ :=
  match l.find? (fun p => decide (p.1 = k)) with
  | some p => p.2
  | none => default

/-- Python `min(xs, key=f)` on a non-empty list, keeping the first element
whose key is minimal. -/
def pyMinKey (f : ℚ → ℚ) (x : ℚ) (xs : List ℚ) : ℚ :=
  xs.foldl (fun acc y => if f y < f acc then y else acc) x

/-- `Bolt.__init__`'s closest standard size:
`min(std_sizes, key=lambda x: abs(x - dia))`. -/
def closestSize (dia : ℚ) : ℚ :=
  pyMinKey (fun x => |x - dia|) 1 std_sizes.tail

/-- `Bolt.__init__`'s standard pitch: `pitch_map.get(closest_size, 1.5)`. -/
def std_pitch (closest : ℚ) : ℚ :=
  dictGet pitch_assoc closest 1.5

/-- Thread designation string: `withPitch s p` renders as `"M{s}x{p}"` and
`bare s` as `"M{s}"`. -/
inductive Desig where
  | withPitch (size pitch : ℚ)
  | bare (size : ℚ)
deriving DecidableEq

/-- `Bolt.threadDesignation` built in `__init__`: the exact standard
designation `M{closest_size}x{std_pitch}`. -/
def primaryDesig (closest : ℚ) : Desig :=
  .withPitch closest (std_pitch closest)

/-- The single fallback designation tried in `createThreads`' except block:
the largest strictly smaller standard size with its mapped pitch
(`pitch_map.get(new_size, 1.0)`) when a smaller size exists, otherwise the
bare designation `M{closest_size}` of the current size. -/
def fallbackDesig (closest : ℚ) : Desig :=
  match std_sizes.filter (fun s => decide (s < closest)) with
  | [] => .bare closest
  | a :: as => .withPitch (as.foldl max a) (dictGet pitch_assoc (as.foldl max a) 1.0)

/-- Model of `Bolt.createThreads`.  The external CAD call `threads.add` is
abstracted as the success oracle `ok`.  Returns the final `thread_created`
flag together with the list of designations attempted, in order.  Mirrors
the source's nested try/except: a successful first attempt returns at once;
otherwise exactly one further attempt is made — with the largest smaller
standard size and its mapped pitch when `available_sizes` is non-empty,
else with the bare current-size designation — and its outcome is final. -/
def createThreads (ok : Desig → Bool) (closest : ℚ) : Bool × List Desig :=
  let primary := primaryDesig closest
  if ok primary then (true, [primary])
  else
    match std_sizes.filter (fun s => decide (s < closest)) with
    | [] =>
        let basic := Desig.bare closest
        (ok basic, [primary, basic])
    | a :: as =>
        let newSize := as.foldl max a
        let d2 := Desig.withPitch newSize (dictGet pitch_assoc newSize 1.0)
        (ok d2, [primary, d2])

/-- Thread-related outcome of `Bolt.buildBolt`: with the geometry steps
abstracted by `geomOk`, the built component is returned (`some`) exactly
when geometry succeeded and `createThreads` reported success; otherwise the
occurrence is deleted and `None` is returned (the bolt is discarded). -/
def buildBoltResult (geomOk : Bool) (ok : Desig → Bool) (closest : ℚ) :
    Option Unit :=
  if geomOk then
    if (createThreads ok closest).1 then some () else none
  else none

/-! ### Batch driver: `createAndExportBolts` loop and `notify` -/

/-- External effects of one run, indexed by the loop's `attempts` counter
(which the source increments exactly once per iteration, so it identifies
the iteration): the progress dialog's cancel flag, the random source for
`random.choice`, success of the geometry steps in `buildBolt`, the
thread-feature success oracle, and success of `export_as_stl`. -/
structure LoopEnv where
  cancelled : ℕ → Bool
  rng : ℕ → ℕ
  geomOk : ℕ → Bool
  threadOk : ℕ → Desig → Bool
  exportOk : ℕ → Bool

/-- Mutable state of the `createAndExportBolts` loop: the four counters,
the `attempts` counter, the dimension-table state (whose used-index set the
draws mutate), and the sequence numbers of the bolts exported so far. -/
structure LoopState where
  success_count : ℕ
  error_count : ℕ
  retry_count : ℕ
  export_count : ℕ
  attempts : ℕ
  dims : BoltDimensions
  exports : List ℕ
deriving DecidableEq

/-- Initial loop state over a given dimension table. -/
def initLoopState (dims : BoltDimensions) : LoopState :=
  ⟨0, 0, 0, 0, 0, dims, []⟩

/-- One non-cancelled iteration of the `while` loop in
`createAndExportBolts`.  `Bolt(0, 0)` first draws an index (a failure there
is the exception caught by the loop's `except`, counted in `error_count`);
`Bolt.__init__` then reads the parallel lists at that index (an out-of-range
read also raises, after the index was already consumed).  A built component
(`buildBolt` result) leads to an export attempt and `success_count += 1`
(the export's own failure only suppresses `export_count`); a discarded bolt
increments `retry_count`.  Every path ends with `attempts += 1`. -/
def loopIter (env : LoopEnv) (start_bolt_num : ℕ) (st : LoopState) : LoopState :=
  match get_random_unused_bolt st.dims (env.rng st.attempts) with
  | .error _ =>
      { st with error_count := st.error_count + 1, attempts := st.attempts + 1 }
  | .ok (idx, dims') =>
      if idx < dims'.head_diameters.length ∧ idx < dims'.body_lengths.length
          ∧ idx < dims'.head_heights.length then
        let closest := closestSize (dims'.body_diameters.getD idx 0)
        match buildBoltResult (env.geomOk st.attempts) (env.threadOk st.attempts)
            closest with
        | some _ =>
            if env.exportOk st.attempts then
              { st with dims := dims'
                        export_count := st.export_count + 1
                        exports := st.exports ++ [start_bolt_num + st.success_count]
                        success_count := st.success_count + 1
                        attempts := st.attempts + 1 }
            else
              { st with dims := dims'
                        success_count := st.success_count + 1
                        attempts := st.attempts + 1 }
        | none =>
            { st with dims := dims'
                      retry_count := st.retry_count + 1
                      attempts := st.attempts + 1 }
      else
        { st with dims := dims'
                  error_count := st.error_count + 1
                  attempts := st.attempts + 1 }

/-- The `while success_count < count and attempts < max_attempts` loop, with
`max_attempts = count * 3`.  A set cancel flag breaks out of the loop.  The
fuel argument bounds the recursion; since `attempts` grows by one each
iteration, fuel `count * 3` runs the loop to its real exit. -/
def runLoop (env : LoopEnv) (count start_bolt_num : ℕ) :
    ℕ → LoopState → LoopState
  | 0, st => st
  | fuel + 1, st =>
      if st.success_count < count ∧ st.attempts < count * 3 then
        if env.cancelled st.attempts then st
        else runLoop env count start_bolt_num fuel (loopIter env start_bolt_num st)
      else st

/-- Model of `BatchBoltCommandExecuteHandler.createAndExportBolts`: run the
loop from a fresh counter state and return the final state together with
the returned success flag `export_count > 0`.  The `spacing` and
`create_threads` parameters are received exactly as in the source, whose
body never reads either. -/
def createAndExportBolts (env : LoopEnv) (count : ℕ) (spacing : ℚ)
    (create_threads : Bool) (start_bolt_num : ℕ) (dims : BoltDimensions) :
    LoopState × Bool :=
  let final := runLoop env count start_bolt_num (count * 3) (initLoopState dims)
  (final, decide (final.export_count > 0))

/-- Batch arithmetic of `notify`: from the checkpoint's `last_bolt`, either
report the campaign complete (`(last_bolt // 250) + 1 > 4`) or compute
`(bolts_to_create, start_bolt_num, end_bolt_num)`. -/
def planBatch (last : ℕ) : Option (ℕ × ℕ × ℕ) :=
  if last / 250 + 1 > 4 then none
  else
    let bolts_to_create := min 250 (1000 - last)
    some (bolts_to_create, last + 1, last + 1 + bolts_to_create - 1)

/-- Result of one `notify` run: the checkpoint written by
`save_tracking_data` (if any), the final `args.isValidResult`, and the final
loop state (for stating properties of the counters). -/
structure NotifyResult where
  saved : Option TrackingData
  result : Bool
  final : LoopState
deriving DecidableEq

/-- Model of the checkpoint-and-batch part of
`BatchBoltCommandExecuteHandler.notify`, starting after the UI-input and
directory/CSV validation steps: `dims0` is the table already loaded by
`load_from_csv`.  Loads the tracking file, computes the batch plan, installs
the checkpoint's used indices, runs `createAndExportBolts`, and on a truthy
result persists `{last_bolt: end_bolt_num, used_indices: list(used)}` (the
used set listed in sorted order). -/
def notifyRun (env : LoopEnv) (create_threads : Bool) (file : TrackingFile)
    (dims0 : BoltDimensions) : NotifyResult :=
  let tracking := load_tracking_data file
  match planBatch tracking.last_bolt with
  | none => ⟨none, false, initLoopState dims0⟩
  | some (bolts_to_create, start_bolt_num, end_bolt_num) =>
      let dims := set_used_indices dims0 tracking.used_indices
      let (final, result) :=
        createAndExportBolts env bolts_to_create 5 create_threads
          start_bolt_num dims
      if result then
        ⟨some ⟨end_bolt_num, final.dims.used_indices.sort (· ≤ ·)⟩, true, final⟩
      else ⟨none, false, final⟩

/-- A sequence of calls to `get_random_unused_bolt`, one per random value in
`rs`; a failed draw leaves the state unchanged and the sequence continues
(as the driver's per-iteration `except` does).  Returns the successfully
drawn indices in order and the final state. -/
def drawSeq (bd : BoltDimensions) : List ℕ → List ℕ × BoltDimensions
  | [] => ([], bd)
  | r :: rs =>
      match get_random_unused_bolt bd r with
      | .error _ => drawSeq bd rs
      | .ok (i, bd') =>
          let (res, bdF) := drawSeq bd' rs
          (i :: res, bdF)

/-! ### Concrete scenarios used to instantiate the theorems -/

/-- A one-row dimension table (values of a typical CSV row, in mm). -/
def oneRowDims : BoltDimensions :=
  ⟨["M8".data], [7.8], [1.25], [13], [30], [5.3], ∅, true⟩

/-- Environment in which every external operation succeeds and the operator
cancels from the second iteration on. -/
def envCancelAfterOne : LoopEnv :=
  ⟨fun n => decide (1 ≤ n), fun _ => 0, fun _ => true, fun _ _ => true,
   fun _ => true⟩

/-- Environment in which every external operation succeeds and the operator
never cancels. -/
def envAllOk : LoopEnv :=
  ⟨fun _ => false, fun _ => 0, fun _ => true, fun _ _ => true, fun _ => true⟩

/-- Thread-success oracle under which only the bare `M6` designation would
succeed. -/
def onlyBareM6 : Desig → Bool
  | .bare s => decide (s = 6)
  | .withPitch _ _ => false

/-- Input lines of a CSV file whose first data row has a non-numeric body
diameter and whose second data row is fully valid. -/
def csvBadRowLines : List (List Char) :=
  ["thread,body,pitch,head,len,height\n".data,
   "M5,abc,0.8,8.5,20,3.5\n".data,
   "M6,6.0,1.0,10,30,4\n".data]

/-! ### Sampler lemmas -/

theorem unusedList_nodup (bd : BoltDimensions) : (unusedList bd).Nodup :=
  (List.nodup_range _).filter _

theorem mem_unusedList {bd : BoltDimensions} {i : ℕ} :
    i ∈ unusedList bd ↔ i < bd.body_diameters.length ∧ i ∉ bd.used_indices := by
  simp [unusedList]

theorem drawIndex_mem {bd : BoltDimensions} (r : ℕ) (h3 : unusedList bd ≠ []) :
    drawIndex bd r ∈ unusedList bd := by
  have hl : 0 < (unusedList bd).length := List.length_pos.mpr h3
  have hm : r % (unusedList bd).length < (unusedList bd).length := Nat.mod_lt _ hl
  rw [drawIndex, List.getD_eq_getElem _ _ hm]
  exact List.getElem_mem hm

theorem draw_ok_of_unused {bd : BoltDimensions} (r : ℕ)
    (h1 : bd.is_loaded = true) (h2 : 0 < bd.body_diameters.length)
    (h3 : unusedList bd ≠ []) :
    get_random_unused_bolt bd r =
      .ok (drawIndex bd r,
        { bd with used_indices := insert (drawIndex bd r) bd.used_indices }) := by
  have h2' : bd.body_diameters.length ≠ 0 := Nat.pos_iff_ne_zero.mp h2
  simp [get_random_unused_bolt, h1, h2', h3]

theorem draw_exhausted {bd : BoltDimensions} (r : ℕ)
    (h1 : bd.is_loaded = true) (h2 : 0 < bd.body_diameters.length)
    (h3 : unusedList bd = []) :
    get_random_unused_bolt bd r = .error .exhausted := by
  have h2' : bd.body_diameters.length ≠ 0 := Nat.pos_iff_ne_zero.mp h2
  simp [get_random_unused_bolt, h1, h2', h3]

/-- Inversion: what a successful draw tells us about its index and the new
state. -/
theorem draw_ok_inv {bd : BoltDimensions} {r i : ℕ} {bd' : BoltDimensions}
    (h : get_random_unused_bolt bd r = .ok (i, bd')) :
    i < bd.body_diameters.length ∧ i ∉ bd.used_indices
    ∧ bd' = { bd with used_indices := insert i bd.used_indices } := by
  unfold get_random_unused_bolt at h
  split at h
  · exact absurd h (by simp)
  · split at h
    · exact absurd h (by simp)
    · rename_i hcond h3
      rw [Except.ok.injEq, Prod.mk.injEq] at h
      obtain ⟨hi, hbd⟩ := h
      have hmem := drawIndex_mem r h3
      rw [hi] at hmem
      have := mem_unusedList.mp hmem
      exact ⟨this.1, this.2, hbd.symm ▸ by rw [← hi]⟩

/-- Invariant of any draw sequence: the used set only grows, the table is
untouched, and the returned indices are pairwise distinct, in range, fresh
(unused at the start), and all recorded in the final used set. -/
theorem drawSeq_invariant (rs : List ℕ) (bd : BoltDimensions) :
    bd.used_indices ⊆ (drawSeq bd rs).2.used_indices
    ∧ (drawSeq bd rs).2.body_diameters = bd.body_diameters
    ∧ (drawSeq bd rs).1.Nodup
    ∧ ∀ i ∈ (drawSeq bd rs).1,
        i < bd.body_diameters.length ∧ i ∉ bd.used_indices
        ∧ i ∈ (drawSeq bd rs).2.used_indices := by
  induction rs generalizing bd with
  | nil => simp [drawSeq]
  | cons r rs ih =>
    cases h : get_random_unused_bolt bd r with
    | error e =>
        have heq : drawSeq bd (r :: rs) = drawSeq bd rs := by
          simp [drawSeq, h]
        rw [heq]
        exact ih bd
    | ok p =>
        obtain ⟨i, bd'⟩ := p
        obtain ⟨hlt, hfresh, hbd'⟩ := draw_ok_inv h
        have heq : drawSeq bd (r :: rs)
            = (i :: (drawSeq bd' rs).1, (drawSeq bd' rs).2) := by
          simp [drawSeq, h]
        obtain ⟨ihSub, ihBody, ihNodup, ihMem⟩ := ih bd'
        have hused' : bd'.used_indices = insert i bd.used_indices := by
          rw [hbd']
        have hbody' : bd'.body_diameters = bd.body_diameters := by
          rw [hbd']
        refine heq ▸ ⟨?_, ?_, ?_, ?_⟩
        · intro x hx
          exact ihSub (by rw [hused']; exact Finset.mem_insert_of_mem hx)
        · rw [ihBody, hbody']
        · refine List.nodup_cons.mpr ⟨?_, ihNodup⟩
          intro hmem
          have := (ihMem i hmem).2.1
          rw [hused'] at this
          exact this (Finset.mem_insert_self i bd.used_indices)
        · intro x hx
          rcases List.mem_cons.mp hx with hx | hx
          · subst hx
            refine ⟨hlt, hfresh, ihSub ?_⟩
            rw [hused']
            exact Finset.mem_insert_self x bd.used_indices
          · obtain ⟨h1, h2, h3⟩ := ihMem x hx
            rw [hbody'] at h1
            rw [hused'] at h2
            exact ⟨h1, fun hc => h2 (Finset.mem_insert_of_mem hc), h3⟩

/-! ### Claim theorems: sampler (C4, C5) -/

/-- C4: for every loaded table of size N and used set U, if `{0..N-1} \ U`
is empty then `get_random_unused_bolt` deterministically fails with the
exhaustion error (the total Lean function neither blocks nor loops, and no
modified state is produced); otherwise it returns the randomly selected
index after adding it to U.  The selection is uniform over the unused set:
for random values below the unused count, distinct values give distinct
indices and every unused index is hit. -/
theorem c4_draw_semantics (bd : BoltDimensions) (h1 : bd.is_loaded = true)
    (h2 : 0 < bd.body_diameters.length) :
    (unusedList bd = [] →
      ∀ r, get_random_unused_bolt bd r = .error .exhausted)
    ∧ (unusedList bd ≠ [] → ∀ r,
        get_random_unused_bolt bd r =
          .ok (drawIndex bd r,
            { bd with used_indices := insert (drawIndex bd r) bd.used_indices })
        ∧ drawIndex bd r ∈ unusedList bd)
    ∧ (∀ r₁ r₂, r₁ < (unusedList bd).length → r₂ < (unusedList bd).length →
        drawIndex bd r₁ = drawIndex bd r₂ → r₁ = r₂)
    ∧ (∀ i ∈ unusedList bd,
        ∃ r, r < (unusedList bd).length ∧ drawIndex bd r = i) := by
  refine ⟨fun h3 r => draw_exhausted r h1 h2 h3,
    fun h3 r => ⟨draw_ok_of_unused r h1 h2 h3, drawIndex_mem r h3⟩, ?_, ?_⟩
  · intro r₁ r₂ hr₁ hr₂ heq
    rw [drawIndex, drawIndex, Nat.mod_eq_of_lt hr₁, Nat.mod_eq_of_lt hr₂,
      List.getD_eq_getElem _ _ hr₁, List.getD_eq_getElem _ _ hr₂] at heq
    exact ((unusedList_nodup bd).getElem_inj_iff).mp heq
  · intro i hi
    obtain ⟨r, hr, hget⟩ := List.mem_iff_getElem.mp hi
    refine ⟨r, hr, ?_⟩
    rw [drawIndex, Nat.mod_eq_of_lt hr, List.getD_eq_getElem _ _ hr, hget]

/-- Witness for C4 at a concrete state: the one-row table with its single
index already used is exhausted, and the same table with an empty used set
draws index 0. -/
theorem c4_draw_semantics_witness :
    get_random_unused_bolt (set_used_indices oneRowDims [0]) 7
      = .error .exhausted
    ∧ drawIndex oneRowDims 5 ∈ unusedList oneRowDims := by
  constructor
  · exact (c4_draw_semantics (set_used_indices oneRowDims [0]) (by decide)
      (by decide)).1 (by decide) 7
  · exact ((c4_draw_semantics oneRowDims (by decide) (by decide)).2.1
      (by decide) 5).2

/-- C5: across any sequence of draws started from a state whose used set was
installed from a checkpoint list U (`set_used_indices`), the returned
indices are pairwise distinct, each lies in `[0, N)`, none of them is in U,
and the used set only grows (every returned index also ends up recorded in
the final used set). -/
theorem c5_draw_sequence_distinct (bd : BoltDimensions) (U rs : List ℕ) :
    (drawSeq (set_used_indices bd U) rs).1.Nodup
    ∧ (∀ i ∈ (drawSeq (set_used_indices bd U) rs).1,
        i < bd.body_diameters.length ∧ i ∉ U
        ∧ i ∈ (drawSeq (set_used_indices bd U) rs).2.used_indices)
    ∧ (set_used_indices bd U).used_indices
        ⊆ (drawSeq (set_used_indices bd U) rs).2.used_indices := by
  obtain ⟨hsub, _, hnodup, hmem⟩ := drawSeq_invariant rs (set_used_indices bd U)
  refine ⟨hnodup, fun i hi => ?_, hsub⟩
  obtain ⟨h1, h2, h3⟩ := hmem i hi
  refine ⟨h1, fun hc => h2 ?_, h3⟩
  simp [set_used_indices, List.mem_toFinset, hc]

/-- Witness for C5 at concrete inputs: resuming the one-row table with the
full checkpoint `U = [0]` yields no draws, and resuming with `U = []`
draws exactly index 0 once over two attempts. -/
theorem c5_draw_sequence_distinct_witness :
    (drawSeq (set_used_indices oneRowDims [0]) [3, 4]).1.Nodup
    ∧ (0 ∈ (drawSeq (set_used_indices oneRowDims []) [3, 4]).1 →
        0 < oneRowDims.body_diameters.length ∧ 0 ∉ ([] : List ℕ)
        ∧ 0 ∈ (drawSeq (set_used_indices oneRowDims []) [3, 4]).2.used_indices) :=
  ⟨(c5_draw_sequence_distinct oneRowDims [0] [3, 4]).1,
   fun h => (c5_draw_sequence_distinct oneRowDims [] [3, 4]).2.1 0 h⟩

/-! ### Claim theorems: checkpoint load (C6), batch arithmetic (C9),
thread flag (C10) -/

/-- C6: `load_tracking_data` returns the default
`{last_bolt: 0, used_indices: []}` when the tracking file is absent
(`none`) or present but unreadable / corrupt (`some none`), and returns the
stored structure unchanged when the file parses. -/
theorem c6_load_tracking_default :
    load_tracking_data none = ⟨0, []⟩
    ∧ load_tracking_data (some none) = ⟨0, []⟩
    ∧ ∀ d : TrackingData, load_tracking_data (some (some d)) = d :=
  ⟨rfl, rfl, fun _ => rfl⟩

/-- C9: batch sizing arithmetic.  From `last_bolt = 760` the plan is
`bolts_to_create = min(250, 1000 - 760) = 240`, `start_bolt_num = 761`,
`end_bolt_num = 1000`; and the run terminates with the campaign-complete
notice (no batch plan, nothing saved, no bolts created) exactly when
`remaining = 1000 - last_bolt ≤ 0`. -/
theorem c9_batch_arithmetic :
    planBatch 760 = some (240, 761, 1000)
    ∧ (∀ last : ℕ, (1000 : ℤ) - last ≤ 0 ↔ planBatch last = none)
    ∧ (∀ (env : LoopEnv) (ct : Bool) (file : TrackingFile)
        (dims0 : BoltDimensions),
        1000 ≤ (load_tracking_data file).last_bolt →
        notifyRun env ct file dims0 = ⟨none, false, initLoopState dims0⟩) := by
  have key : ∀ last : ℕ, (1000 : ℤ) - last ≤ 0 ↔ planBatch last = none := by
    intro last
    have h1 : (1000 : ℤ) - last ≤ 0 ↔ 1000 ≤ last := by
      omega
    have h2 : 1000 ≤ last ↔ last / 250 + 1 > 4 := by
      constructor
      · intro h
        have : 4 ≤ last / 250 := (Nat.le_div_iff_mul_le (by norm_num)).mpr h
        omega
      · intro h
        have : 4 ≤ last / 250 := by omega
        have := (Nat.le_div_iff_mul_le (by norm_num)).mp this
        omega
    rw [h1, h2]
    constructor
    · intro h
      simp [planBatch, h]
    · intro h
      by_contra hc
      simp [planBatch, hc] at h
  refine ⟨by decide, key, fun env ct file dims0 h => ?_⟩
  have hnone : planBatch (load_tracking_data file).last_bolt = none := by
    refine (key _).mp ?_
    have : (1000 : ℤ) ≤ ((load_tracking_data file).last_bolt : ℤ) := by
      exact_mod_cast h
    omega
  simp [notifyRun, hnone]

/-- Witness for C9: at `last_bolt = 1000` the plan is `none` and a full
`notify` run with the all-success environment saves nothing and reports
failure. -/
theorem c9_batch_arithmetic_witness :
    planBatch 1000 = none
    ∧ notifyRun envAllOk true (some (some ⟨1000, []⟩)) oneRowDims
        = ⟨none, false, initLoopState oneRowDims⟩ :=
  ⟨(c9_batch_arithmetic.2.1 1000).mp (by norm_num),
   c9_batch_arithmetic.2.2 envAllOk true (some (some ⟨1000, []⟩)) oneRowDims
     (by decide)⟩

/-- C10: the thread-creation enable flag has no effect: the whole modelled
`notify` run — the bolts built, the exported sequence numbers, the final
counters and the persisted checkpoint — is identical whether
`create_threads` is true or false, because `createAndExportBolts` receives
the flag but its body never reads it and `buildBolt` always attempts thread
creation. -/
theorem c10_create_threads_flag_no_effect
    (env : LoopEnv) (file : TrackingFile) (dims0 : BoltDimensions)
    (b₁ b₂ : Bool) :
    notifyRun env b₁ file dims0 = notifyRun env b₂ file dims0 := rfl

/-! ### Fold lemmas for Python `min(..., key=...)` and `max(...)` -/

theorem pyMinKey_mem (f : ℚ → ℚ) (xs : List ℚ) :
    ∀ x : ℚ, pyMinKey f x xs ∈ x :: xs := by
  induction xs with
  | nil => intro x; simp [pyMinKey]
  | cons y ys ih =>
      intro x
      have h := ih (if f y < f x then y else x)
      rw [pyMinKey] at h ⊢
      rw [List.foldl_cons]
      rcases List.mem_cons.mp h with h' | h'
      · rw [h']
        split
        · exact List.mem_cons_of_mem _ (List.mem_cons_self _ _)
        · exact List.mem_cons_self _ _
      · exact List.mem_cons_of_mem _ (List.mem_cons_of_mem _ h')

theorem pyMinKey_le (f : ℚ → ℚ) (xs : List ℚ) :
    ∀ x : ℚ, ∀ y ∈ x :: xs, f (pyMinKey f x xs) ≤ f y := by
  induction xs with
  | nil =>
      intro x y hy
      rcases List.mem_cons.mp hy with h | h
      · rw [h]; simp [pyMinKey]
      · simp at h
  | cons z zs ih =>
      intro x y hy
      rw [pyMinKey, List.foldl_cons]
      have hmin : ∀ w ∈ (if f z < f x then z else x) :: zs,
          f (pyMinKey f (if f z < f x then z else x) zs) ≤ f w := ih _
      rw [pyMinKey] at hmin
      rcases List.mem_cons.mp hy with h | h
      · rw [h]
        by_cases hc : f z < f x
        · have := hmin _ (List.mem_cons_self _ _)
          rw [if_pos hc] at this ⊢
          exact le_trans this (le_of_lt hc)
        · have := hmin _ (List.mem_cons_self _ _)
          rw [if_neg hc] at this ⊢
          exact this
      · rcases List.mem_cons.mp h with h' | h'
        · rw [h']
          by_cases hc : f z < f x
          · have := hmin _ (List.mem_cons_self _ _)
            rw [if_pos hc] at this ⊢
            exact this
          · have := hmin _ (List.mem_cons_self _ _)
            rw [if_neg hc] at this ⊢
            exact le_trans this (le_of_not_lt hc)
        · exact hmin y (List.mem_cons_of_mem _ h')

theorem foldl_max_mem (xs : List ℚ) : ∀ a : ℚ, xs.foldl max a ∈ a :: xs := by
  induction xs with
  | nil => intro a; simp
  | cons y ys ih =>
      intro a
      rw [List.foldl_cons]
      rcases List.mem_cons.mp (ih (max a y)) with h | h
      · rw [h]
        rcases max_choice a y with h' | h' <;> rw [h']
        · exact List.mem_cons_self _ _
        · exact List.mem_cons_of_mem _ (List.mem_cons_self _ _)
      · exact List.mem_cons_of_mem _ (List.mem_cons_of_mem _ h)

theorem le_foldl_max (xs : List ℚ) : ∀ a : ℚ, ∀ y ∈ a :: xs, y ≤ xs.foldl max a := by
  induction xs with
  | nil =>
      intro a y hy
      rcases List.mem_cons.mp hy with h | h
      · rw [h]; simp
      · simp at h
  | cons z zs ih =>
      intro a y hy
      rw [List.foldl_cons]
      rcases List.mem_cons.mp hy with h | h
      · rw [h]
        exact le_trans (le_max_left a z) (ih (max a z) _ (List.mem_cons_self _ _))
      · rcases List.mem_cons.mp h with h' | h'
        · rw [h']
          exact le_trans (le_max_right a z) (ih (max a z) _ (List.mem_cons_self _ _))
        · exact ih (max a z) y (List.mem_cons_of_mem _ h')

theorem closestSize_mem (dia : ℚ) : closestSize dia ∈ std_sizes := by
  have hstd : (1 : ℚ) :: std_sizes.tail = std_sizes := rfl
  have := pyMinKey_mem (fun x => |x - dia|) std_sizes.tail 1
  rw [hstd] at this
  exact this

theorem closestSize_min (dia : ℚ) :
    ∀ s ∈ std_sizes, |closestSize dia - dia| ≤ |s - dia| := by
  intro s hs
  have hstd : (1 : ℚ) :: std_sizes.tail = std_sizes := rfl
  exact pyMinKey_le (fun x => |x - dia|) std_sizes.tail 1 s (hstd ▸ hs)

/-! ### Claim theorem: standard-size rounding (C8) -/

/-- C8: deriving a bolt's thread parameters rounds the raw body diameter to
the nearest entry of the fixed standard-size table (the chosen size is in
the table and minimises the absolute distance) and maps it to its coarse
pitch, with default pitch 1.5 for sizes absent from the pitch map; in
particular raw diameter 7.8 gives closest size 8, pitch 1.25 and a thread
designation rendering as `M8x1.25`. -/
theorem c8_standard_size_rounding :
    closestSize 7.8 = 8
    ∧ std_pitch 8 = 1.25
    ∧ primaryDesig (closestSize 7.8) = Desig.withPitch 8 1.25
    ∧ (∀ dia : ℚ, closestSize dia ∈ std_sizes)
    ∧ (∀ dia : ℚ, ∀ s ∈ std_sizes, |closestSize dia - dia| ≤ |s - dia|)
    ∧ (∀ s : ℚ, pitch_assoc.find? (fun p => decide (p.1 = s)) = none →
        std_pitch s = 1.5) := by
  have h1 : closestSize 7.8 = 8 := by
    norm_num [closestSize, pyMinKey, std_sizes, abs]
  have h2 : std_pitch 8 = 1.25 := by
    norm_num [std_pitch, dictGet, pitch_assoc, List.find?]
  refine ⟨h1, h2, ?_, closestSize_mem, closestSize_min, ?_⟩
  · rw [h1, primaryDesig, h2]
  · intro s hs
    simp [std_pitch, dictGet, hs]

/-- Witness for C8 at concrete inputs: the size chosen for diameter 7.8 is
a table entry at least as close as entry 6, and the unmapped size 7 falls
back to pitch 1.5. -/
theorem c8_standard_size_rounding_witness :
    closestSize 7.8 ∈ std_sizes
    ∧ |closestSize 7.8 - 7.8| ≤ |6 - 7.8|
    ∧ std_pitch 7 = 1.5 :=
  ⟨c8_standard_size_rounding.2.2.2.1 7.8,
   c8_standard_size_rounding.2.2.2.2.1 7.8 6 (by norm_num [std_sizes]),
   c8_standard_size_rounding.2.2.2.2.2 7
     (by norm_num [pitch_assoc, List.find?])⟩

/-! ### Claim theorems: thread-creation retry policy (C1) -/

/-- C1 counterexample: with closest standard size 8 (as derived from raw
diameter 7.8) and an external thread oracle under which only the bare `M6`
designation would succeed, `createThreads` attempts `M8x1.25` and then
`M6x1.0` only — two attempts, no third bare attempt — and fails, so the
bolt is discarded even though the claimed third attempt `M6` would have
succeeded.  This refutes the claimed three-tier retry policy. -/
theorem c1_counterexample_no_third_attempt :
    (createThreads onlyBareM6 8).1 = false
    ∧ (createThreads onlyBareM6 8).2
        = [Desig.withPitch 8 1.25, Desig.withPitch 6 1]
    ∧ Desig.bare 6 ∉ (createThreads onlyBareM6 8).2
    ∧ onlyBareM6 (Desig.bare 6) = true
    ∧ buildBoltResult true onlyBareM6 8 = none := by
  have hct : createThreads onlyBareM6 8
      = (false, [Desig.withPitch 8 1.25, Desig.withPitch 6 1]) := by
    norm_num [createThreads, onlyBareM6, primaryDesig, std_pitch, dictGet,
      pitch_assoc, List.find?, std_sizes, List.filter]
  refine ⟨by rw [hct], by rw [hct], ?_, by norm_num [onlyBareM6], ?_⟩
  · rw [hct]
    simp only [List.mem_cons, List.mem_singleton, List.not_mem_nil]
    rintro (h | h | h)
    · exact Desig.noConfusion h
    · exact Desig.noConfusion h
    · exact h
  · rw [buildBoltResult, if_pos rfl, hct]
    rfl

/-- C1 amended: thread creation makes at most two attempts.  The first uses
the exact standard designation; if it succeeds no other attempt is made.
On failure exactly one retry follows: when a strictly smaller standard size
exists, it uses the largest such size with its mapped pitch (default 1.0),
otherwise (only for the smallest size) it uses a bare designation of the
current size with no pitch.  The retry's outcome is final, and `buildBolt`
keeps the component exactly when thread creation reported success,
discarding the bolt otherwise. -/
theorem c1_amended_two_tier_retry (ok : Desig → Bool) (closest : ℚ) :
    (ok (primaryDesig closest) = true →
      createThreads ok closest = (true, [primaryDesig closest]))
    ∧ (ok (primaryDesig closest) = false →
      createThreads ok closest
        = (ok (fallbackDesig closest),
           [primaryDesig closest, fallbackDesig closest]))
    ∧ (∀ a as, std_sizes.filter (fun s => decide (s < closest)) = a :: as →
        fallbackDesig closest
          = Desig.withPitch (as.foldl max a)
              (dictGet pitch_assoc (as.foldl max a) 1.0)
        ∧ as.foldl max a ∈ std_sizes.filter (fun s => decide (s < closest))
        ∧ ∀ y ∈ std_sizes.filter (fun s => decide (s < closest)),
            y ≤ as.foldl max a)
    ∧ (std_sizes.filter (fun s => decide (s < closest)) = [] →
        fallbackDesig closest = Desig.bare closest)
    ∧ (∀ g : Bool,
        (buildBoltResult g ok closest).isSome
          = (g && (createThreads ok closest).1)) := by
  refine ⟨?_, ?_, ?_, ?_, ?_⟩
  · intro hp
    rw [createThreads, if_pos hp]
  · intro hp
    rw [createThreads, if_neg (by simp [hp]), fallbackDesig]
    cases hf : std_sizes.filter (fun s => decide (s < closest)) with
    | nil => rfl
    | cons a as => rfl
  · intro a as hf
    rw [fallbackDesig, hf]
    exact ⟨rfl, foldl_max_mem as a, le_foldl_max as a⟩
  · intro hf
    rw [fallbackDesig, hf]
  · intro g
    cases g with
    | false => rfl
    | true =>
        rw [buildBoltResult, if_pos rfl, Bool.true_and]
        cases h : (createThreads ok closest).1 <;> simp [h]

/-- Witness for C1's amended theorem: with an always-failing oracle and
closest size 8 the run is the primary attempt followed by the single
fallback attempt, and the bolt is discarded. -/
theorem c1_amended_two_tier_retry_witness :
    createThreads (fun _ => false) 8
      = (false, [primaryDesig 8, fallbackDesig 8])
    ∧ (buildBoltResult true (fun _ => false) 8).isSome
      = (true && (createThreads (fun _ => false) 8).1) :=
  ⟨(c1_amended_two_tier_retry (fun _ => false) 8).2.1 rfl,
   (c1_amended_two_tier_retry (fun _ => false) 8).2.2.2.2 true⟩

/-! ### Claim theorems: checkpoint advance (C2), exhaustion handling (C3),
CSV row skipping (C7) -/

/-- C2, evaluation at the failing input: starting from checkpoint
`last_bolt = 0` over a one-row table, with every external operation
succeeding and the operator cancelling from the second iteration on, the
run builds and exports exactly one bolt, yet the persisted checkpoint's
`last_bolt` is 250 — the precomputed `end_bolt_num` of the full batch — not
`0 + 1`.  The code bug: `notify` saves `end_bolt_num` computed before the
loop, not the previous count plus the successes actually achieved, so an
early exit (cancel or attempt cap) overstates progress. -/
theorem c2_checkpoint_overstates_on_cancel :
    (notifyRun envCancelAfterOne true (some (some ⟨0, []⟩))
        oneRowDims).final.success_count = 1
    ∧ (notifyRun envCancelAfterOne true (some (some ⟨0, []⟩))
        oneRowDims).final.export_count = 1
    ∧ ((notifyRun envCancelAfterOne true (some (some ⟨0, []⟩))
        oneRowDims).saved.map TrackingData.last_bolt) = some 250
    ∧ (250 : ℕ) ≠ 0 + 1 := by
  refine ⟨by decide, by decide, by decide, by decide⟩

/-- C3 counterexample: with checkpoint `last_bolt = 998` (so the batch size
is 2) over a one-row table and every external operation succeeding, the
first iteration consumes the only row; every following iteration's draw
raises the exhaustion error, which the driver's per-iteration `except`
catches, counting an error and continuing.  The loop runs on to the attempt
cap (`attempts = 6`) and accumulates five exhaustion errors — whereas the
claimed abort-on-exhaustion behaviour would have stopped after the first,
leaving at most one error.  The exhaustion is thus surfaced out of the
sampler but silently retried by the batch driver. -/
theorem c3_counterexample_exhaustion_retried :
    (notifyRun envAllOk true (some (some ⟨998, []⟩))
        oneRowDims).final.error_count = 5
    ∧ (notifyRun envAllOk true (some (some ⟨998, []⟩))
        oneRowDims).final.success_count = 1
    ∧ (notifyRun envAllOk true (some (some ⟨998, []⟩))
        oneRowDims).final.attempts = 6 := by
  refine ⟨by decide, by decide, by decide⟩

/-- C3 amended: the sampler raises an exhaustion error when no unused row
is left, and the batch driver catches it per iteration: one loop step in
the exhausted state only increments `error_count` and `attempts`, leaving
every other counter and the table state unchanged, and the loop continues —
bolt creation ends only when a loop guard (success target or attempt cap)
or cancellation does, with the errors reported in the end-of-run summary. -/
theorem c3_amended_exhaustion_counted (env : LoopEnv)
    (count start fuel : ℕ) (st : LoopState)
    (hs : st.success_count < count) (ha : st.attempts < count * 3)
    (hc : env.cancelled st.attempts = false)
    (h1 : st.dims.is_loaded = true) (h2 : 0 < st.dims.body_diameters.length)
    (h3 : unusedList st.dims = []) :
    get_random_unused_bolt st.dims (env.rng st.attempts)
      = .error .exhausted
    ∧ runLoop env count start (fuel + 1) st
      = runLoop env count start fuel
          { st with error_count := st.error_count + 1,
                    attempts := st.attempts + 1 } := by
  have hdraw := draw_exhausted (env.rng st.attempts) h1 h2 h3
  refine ⟨hdraw, ?_⟩
  rw [runLoop, if_pos ⟨hs, ha⟩, if_neg (by simp [hc])]
  congr 1
  rw [loopIter, hdraw]

/-- Witness for C3's amended theorem: one exhausted step at the concrete
state reached after the one-row table's single index is used. -/
theorem c3_amended_exhaustion_counted_witness :
    get_random_unused_bolt (set_used_indices oneRowDims [0]) (envAllOk.rng 0)
      = .error .exhausted
    ∧ runLoop envAllOk 2 999 6 (initLoopState (set_used_indices oneRowDims [0]))
      = runLoop envAllOk 2 999 5
          { initLoopState (set_used_indices oneRowDims [0]) with
              error_count := 1, attempts := 1 } :=
  c3_amended_exhaustion_counted envAllOk 2 999 5
    (initLoopState (set_used_indices oneRowDims [0]))
    (by decide) (by decide) (by decide) (by decide) (by decide) (by decide)

/-- C7, evaluation at the failing input: loading a CSV whose first data row
has the non-numeric body diameter `abc` (and a valid second row) leaves the
column lists misaligned — `thread_sizes` has 2 entries while the five
numeric lists have 1 — because the Python loop appends `thread_sizes`
before the `float()` conversion that raises.  The bad row therefore does
contribute to the in-memory table and the six parallel lists do not all
have equal length, contrary to the claim (and to the loader's clear
intent of skipping the row in its entirety). -/
theorem c7_partial_row_misaligns_lists :
    (load_from_csv BoltDimensions.init csvBadRowLines).1.thread_sizes.length = 2
    ∧ (load_from_csv BoltDimensions.init csvBadRowLines).1.body_diameters.length = 1
    ∧ (load_from_csv BoltDimensions.init csvBadRowLines).1.pitches.length = 1
    ∧ (load_from_csv BoltDimensions.init csvBadRowLines).1.head_diameters.length = 1
    ∧ (load_from_csv BoltDimensions.init csvBadRowLines).1.body_lengths.length = 1
    ∧ (load_from_csv BoltDimensions.init csvBadRowLines).1.head_heights.length = 1
    ∧ (load_from_csv BoltDimensions.init csvBadRowLines).2 = true := by
  refine ⟨by decide, by decide, by decide, by decide, by decide, by decide,
    by decide⟩

/-! ### Loader invariant: a successfully loaded table is non-empty -/

theorem loadRow_count_le (st : LoadState) (line : List Char)
    (h : st.line_count ≤ st.body_diameters.length) :
    (loadRow st line).line_count ≤ (loadRow st line).body_diameters.length := by
  unfold loadRow
  dsimp only
  split
  · exact h
  · split
    · split
      · exact h
      · split
        · simp only [List.length_append, List.length_singleton]; omega
        · split
          · simp only [List.length_append, List.length_singleton]; omega
          · split
            · simp only [List.length_append, List.length_singleton]; omega
            · split
              · simp only [List.length_append, List.length_singleton]; omega
              · simp only [List.length_append, List.length_singleton]; omega
    · exact h

/-- A table for which `load_from_csv` reports `is_loaded` has at least one
row in `body_diameters` (`line_count`, which drives the flag, only counts
fully parsed rows, each of which appended a body diameter).  This is what
licenses assuming a positive table size for loaded tables in the draw
semantics. -/
theorem loaded_table_nonempty (bd : BoltDimensions) (lines : List (List Char))
    (h : (load_from_csv bd lines).1.is_loaded = true) :
    0 < (load_from_csv bd lines).1.body_diameters.length := by
  have key : ∀ (rows : List (List Char)) (st : LoadState),
      st.line_count ≤ st.body_diameters.length →
      (rows.foldl loadRow st).line_count
        ≤ (rows.foldl loadRow st).body_diameters.length := by
    intro rows
    induction rows with
    | nil => intro st hst; exact hst
    | cons l ls ih =>
        intro st hst
        exact ih (loadRow st l) (loadRow_count_le st l hst)
  have h0 := key (lines.drop 1) ⟨[], [], [], [], [], [], 0⟩ (by simp)
  simp only [load_from_csv, decide_eq_true_eq] at h
  exact lt_of_lt_of_le h h0
